import Mathlib

/-!
# EC2 Instance Connect bastion: the port-forwarding authorisation hook

A shallow embedding of `main.go`.  The two hooks installed on the SSH server,
`PublicKeyHandler` and `LocalPortForwardingCallback`, are closures over two
AWS clients.  The clients are remote services, so the embedding threads an
explicit abstract world `W` through every remote call: a call takes the world
it is made in and returns its reply together with the world it leaves behind.
Every effect of a hook (log line or remote call) is recorded, in program
order, in a trace.

Go values are rendered as follows.
* A `*string` / `*T` field is an `Option`; `nil` is `none`.
* A `(out, err)` return pair is a `Reply`: `err != nil` is `Reply.err`,
  otherwise `Reply.ok out`.
* `interface{}` values read from the connection context are a `Value`
  (the `nil` interface, a `string`, an `xssh.PublicKey`, or anything else).
* `uint32` is a `Nat` (the port is only ever printed).
-/

namespace Bastion

/-! ## SDK data types -/

/-- Modelled from the spec: the SDK record `types.Filter` (its declaration is
not part of the repository); a filter name and the values to match. -/
structure Filter where
  Name : Option String
  Values : List String
  deriving DecidableEq, Repr

/-- Modelled from the spec: the SDK record `ec2.DescribeNetworkInterfacesInput`
(declaration not in the repository); only the `Filters` field is ever set. -/
structure DescribeNetworkInterfacesInput where
  Filters : List Filter
  deriving DecidableEq, Repr

/-- Modelled from the spec: the SDK record `types.NetworkInterfaceAttachment`
(declaration not in the repository): the "attachment" sub-record, which may
carry an owning-instance identifier. -/
structure NetworkInterfaceAttachment where
  InstanceId : Option String
  deriving DecidableEq, Repr

/-- Modelled from the spec: the SDK record `types.NetworkInterface`
(declaration not in the repository): an attachment record, which may carry a
zone and an attachment sub-record. -/
structure NetworkInterface where
  AvailabilityZone : Option String
  Attachment : Option NetworkInterfaceAttachment
  deriving DecidableEq, Repr

/-- Modelled from the spec: the SDK record `ec2.DescribeNetworkInterfacesOutput`
(declaration not in the repository): zero or more attachment records. -/
structure DescribeNetworkInterfacesOutput where
  NetworkInterfaces : List NetworkInterface
  deriving DecidableEq, Repr

/-- Modelled from the spec: the SDK record
`ec2instanceconnect.SendSSHPublicKeyInput` (declaration not in the
repository): zone, instance identifier, OS user name and key text. -/
structure SendSSHPublicKeyInput where
  AvailabilityZone : Option String
  InstanceId : Option String
  InstanceOSUser : Option String
  SSHPublicKey : Option String
  deriving DecidableEq, Repr

/-- Modelled from the spec: the SDK record
`ec2instanceconnect.SendSSHPublicKeyOutput` (declaration not in the
repository): a boolean success flag. -/
structure SendSSHPublicKeyOutput where
  Success : Bool
  deriving DecidableEq, Repr

/-- A Go `(out, err)` pair: `err msg` when `err != nil` (the message is what
`log.Println(err)` prints), `ok out` when `err == nil`. -/
inductive Reply (α : Type) where
  | err (msg : String)
  | ok (out : α)
  deriving DecidableEq, Repr

/-- Modelled from the spec: `aws.String` of the SDK (not in the repository),
a pointer to a copy of the string; never `nil`. -/
def aws_String (v : String) : Option String := some v

/-- Modelled from the spec: `aws.ToString` of the SDK (not in the repository),
the pointed-to string, or the empty string for `nil`. -/
def aws_ToString (p : Option String) : String :=
  match p with
  | some v => v
  | none => ""

/-! ## Connection context -/

/-- The keys of the connection context read by the hooks. -/
inductive ContextKey where
  | ContextKeyUser
  | ContextKeyPublicKey
  deriving DecidableEq, Repr

/-- A Go `interface{}` as returned by `ctx.Value(key)`.  `other` stands for a
value of any dynamic type that is neither `string` nor an `xssh.PublicKey`. -/
inductive Value (PK : Type) where
  | nil
  | string (s : String)
  | publicKey (k : PK)
  | other (dynamicType : String)
  deriving DecidableEq, Repr

/-- The part of `ssh.Context` the hooks read: the `Value` lookup. -/
structure Context (PK : Type) where
  Value : ContextKey → Value PK

/-! ## Effects -/

/-- One observable effect of a hook. -/
inductive Event where
  | log (line : String)
  | describeNetworkInterfaces (input : DescribeNetworkInterfacesInput)
  | sendSSHPublicKey (input : SendSSHPublicKeyInput)
  deriving DecidableEq, Repr

/-- Everything the hooks use that lives outside `main.go`: key formatting from
`golang.org/x/crypto/ssh`, and the two AWS clients captured by the closures.
A remote call maps the world it is issued in and its input to a reply and the
world after the call. -/
structure Services (PK W : Type) where
  MarshalAuthorizedKey : PK → String
  formatKey : PK → String
  DescribeNetworkInterfaces :
    W → DescribeNetworkInterfacesInput → Reply DescribeNetworkInterfacesOutput × W
  SendSSHPublicKey : W → SendSSHPublicKeyInput → Reply SendSSHPublicKeyOutput × W

/-! ## The hooks -/

/-- The hook `PublicKeyHandler` (main.go:56-59): logs the key, returns `true`. -/
def PublicKeyHandler {PK W : Type} (svc : Services PK W) (_ctx : Context PK) (key : PK) :
    Bool × List Event :=
  (true, [Event.log ("PublicKeyHandler(_, " ++ svc.formatKey key ++ ")")])

/-- The filter names ranged over by the lookup loop (main.go:90-95). -/
def filterNames : List String :=
  [ "addresses.private-ip-address",
    "addresses.private-dns-name",
    "association.public-ip",
    "association.public-dns-name" ]

/-- The request built for one filter (main.go:96-105): a single filter whose
only value is the destination host. -/
def filterQuery (filterName destinationHost : String) : DescribeNetworkInterfacesInput :=
  { Filters := [ { Name := aws_String filterName, Values := [destinationHost] } ] }

/-- The body of the lookup loop after the query (main.go:106-138).  `Sum.inl line`
is a `continue` after logging `line`; `Sum.inr (az, ii)` is the assignment of
`availabilityZone` and `instanceId` followed by `break`. -/
def inspect (reply : Reply DescribeNetworkInterfacesOutput) : String ⊕ (String × String) :=
  match reply with
  | Reply.err e => Sum.inl e
  | Reply.ok out =>
    match out.NetworkInterfaces with
    | [eni] =>
      match eni.AvailabilityZone with
      | none => Sum.inl "az == nil"
      | some az =>
        match eni.Attachment with
        | none => Sum.inl "a == nil"
        | some a =>
          match a.InstanceId with
          | none => Sum.inl "ii == nil"
          | some ii => Sum.inr (aws_ToString (some az), aws_ToString (some ii))
    | _ => Sum.inl "len(enis) != 1"

/-- What the lookup loop leaves behind: the two variables declared at
main.go:88-89, the world, and the effects of the loop. -/
structure LoopResult (W : Type) where
  availabilityZone : String
  instanceId : String
  world : W
  trace : List Event

/-- The lookup loop (main.go:88-139) over the filter names still to be tried.
Falling off the end leaves both variables at their zero value `""`. -/
def lookupLoop {PK W : Type} (svc : Services PK W) (destinationHost : String) :
    List String → W → LoopResult W
  | [], w => { availabilityZone := "", instanceId := "", world := w, trace := [] }
  | filterName :: rest, w =>
    let input := filterQuery filterName destinationHost
    let r := svc.DescribeNetworkInterfaces w input
    match inspect r.1 with
    | Sum.inl line =>
      let tail := lookupLoop svc destinationHost rest r.2
      { tail with
        trace := Event.describeNetworkInterfaces input :: Event.log line :: tail.trace }
    | Sum.inr (az, ii) =>
      { availabilityZone := az, instanceId := ii, world := r.2,
        trace := [Event.describeNetworkInterfaces input] }

/-- The result of one run of the forwarding hook. -/
structure Outcome (W : Type) where
  verdict : Bool
  world : W
  trace : List Event

/-- The request sent to the credential service (main.go:141-146). -/
def sendInput (availabilityZone instanceId user authorizedKey : String) :
    SendSSHPublicKeyInput :=
  { AvailabilityZone := aws_String availabilityZone,
    InstanceId := aws_String instanceId,
    InstanceOSUser := aws_String user,
    SSHPublicKey := aws_String authorizedKey }

/-- The hook `LocalPortForwardingCallback` (main.go:60-157). -/
def LocalPortForwardingCallback {PK W : Type} (svc : Services PK W) (w : W)
    (ctx : Context PK) (destinationHost : String) (destinationPort : Nat) : Outcome W :=
  let entry := Event.log
    ("LocalPortForwardingCallback(_, " ++ destinationHost ++ ", " ++
      toString destinationPort ++ ")")
  match ctx.Value ContextKey.ContextKeyUser with
  | Value.nil => { verdict := false, world := w, trace := [entry, Event.log "ctxVal == nil"] }
  | Value.string user =>
    match ctx.Value ContextKey.ContextKeyPublicKey with
    | Value.nil =>
      { verdict := false, world := w, trace := [entry, Event.log "ctxVal == nil"] }
    | Value.publicKey publicKey =>
      let authorizedKey := svc.MarshalAuthorizedKey publicKey
      let found := lookupLoop svc destinationHost filterNames w
      let input := sendInput found.availabilityZone found.instanceId user authorizedKey
      let r := svc.SendSSHPublicKey found.world input
      match r.1 with
      | Reply.err e =>
        { verdict := false, world := r.2,
          trace := entry :: (found.trace ++ [Event.sendSSHPublicKey input, Event.log e]) }
      | Reply.ok out =>
        if !out.Success then
          { verdict := false, world := r.2,
            trace := entry ::
              (found.trace ++ [Event.sendSSHPublicKey input, Event.log "!out.Success"]) }
        else
          { verdict := true, world := r.2,
            trace := entry :: (found.trace ++ [Event.sendSSHPublicKey input]) }
    | _ => { verdict := false, world := w, trace := [entry, Event.log "!ok"] }
  | _ => { verdict := false, world := w, trace := [entry, Event.log "!ok"] }

/-! ## Observations on traces and on the inventory service -/

/-- Whether an effect is a call to one of the two remote services. -/
def isRemoteCall : Event → Bool
  | Event.log _ => false
  | Event.describeNetworkInterfaces _ => true
  | Event.sendSSHPublicKey _ => true

/-- The remote calls of a trace, in order, with the log lines dropped. -/
def remoteCalls (t : List Event) : List Event := t.filter isRemoteCall

/-- The inventory queries of a trace, in order. -/
def describeInputs (t : List Event) : List DescribeNetworkInterfacesInput :=
  t.filterMap fun e =>
    match e with
    | Event.describeNetworkInterfaces input => some input
    | _ => none

/-- The credential calls of a trace, in order. -/
def sendInputs (t : List Event) : List SendSSHPublicKeyInput :=
  t.filterMap fun e =>
    match e with
    | Event.sendSSHPublicKey input => some input
    | _ => none

/-- The zone and instance id of a reply that is "exactly one record carrying a
zone, an attachment and an instance id"; `none` for every other reply. -/
def completeUnique : Reply DescribeNetworkInterfacesOutput → Option (String × String)
  | Reply.ok { NetworkInterfaces :=
      [ { AvailabilityZone := some z, Attachment := some { InstanceId := some i } } ] } =>
    some (z, i)
  | _ => none

/-- A reply under which a filter does not match: the query errors, or returns
zero records, or two or more records, or exactly one record whose zone,
attachment or attachment instance id is absent. -/
def NoMatch (reply : Reply DescribeNetworkInterfacesOutput) : Prop :=
  match reply with
  | Reply.err _ => True
  | Reply.ok out =>
    out.NetworkInterfaces.length = 0 ∨ 2 ≤ out.NetworkInterfaces.length ∨
      (out.NetworkInterfaces.length = 1 ∧
        ∃ eni ∈ out.NetworkInterfaces,
          eni.AvailabilityZone = none ∨ eni.Attachment = none ∨
            ∃ a ∈ eni.Attachment, a.InstanceId = none)

instance (reply : Reply DescribeNetworkInterfacesOutput) : Decidable (NoMatch reply) := by
  unfold NoMatch
  split <;> infer_instance

/-- The world after the inventory has been queried, in order, for every filter
name of the list. -/
def worldAfter {PK W : Type} (svc : Services PK W) (destinationHost : String) :
    List String → W → W
  | [], w => w
  | filterName :: rest, w =>
    worldAfter svc destinationHost rest
      (svc.DescribeNetworkInterfaces w (filterQuery filterName destinationHost)).2

/-- The replies the inventory gives when queried, in order, for every filter
name of the list: the reply to a later query is the one given in the world the
earlier queries left behind. -/
def answers {PK W : Type} (svc : Services PK W) (destinationHost : String) :
    List String → W → List (Reply DescribeNetworkInterfacesOutput)
  | [], _ => []
  | filterName :: rest, w =>
    let r := svc.DescribeNetworkInterfaces w (filterQuery filterName destinationHost)
    r.1 :: answers svc destinationHost rest r.2

/-- The number of inventory queries after which the lookup stops: one past the
position of the first reply with a complete unique record, capped by the number
of filters. -/
def queriesIssued {PK W : Type} (svc : Services PK W) (destinationHost : String)
    (names : List String) (w : W) : Nat :=
  min names.length
    ((answers svc destinationHost names w).findIdx (fun r => (completeUnique r).isSome) + 1)

/-! ## Scripted services for concrete runs -/

/-- Services in the style of a test double.  The world counts the inventory
queries made so far; the `n`-th query is answered by the `n`-th entry of the
script (an empty record list once the script is exhausted) whatever its
input; the credential service answers by `credential`.  Keys are their own
authorized-key text. -/
def scripted (script : List (Reply DescribeNetworkInterfacesOutput))
    (credential : SendSSHPublicKeyInput → Reply SendSSHPublicKeyOutput) :
    Services String Nat where
  MarshalAuthorizedKey := fun k => k
  formatKey := fun k => k
  DescribeNetworkInterfaces := fun n _ => (script.getD n (Reply.ok { NetworkInterfaces := [] }), n + 1)
  SendSSHPublicKey := fun n input => (credential input, n)

/-- A connection context holding user `user` and public key `key`. -/
def connection (user key : String) : Context String where
  Value := fun k =>
    match k with
    | ContextKey.ContextKeyUser => Value.string user
    | ContextKey.ContextKeyPublicKey => Value.publicKey key

/-- A complete attachment record. -/
def record (zone instanceId : String) : NetworkInterface :=
  { AvailabilityZone := some zone, Attachment := some { InstanceId := some instanceId } }

/-! ## The loop body against the notion of a complete unique record -/

theorem inspect_of_completeUnique {reply : Reply DescribeNetworkInterfacesOutput}
    {z i : String} (h : completeUnique reply = some (z, i)) :
    inspect reply = Sum.inr (z, i) := by
  rcases reply with e | ⟨⟨l⟩⟩
  · simp [completeUnique] at h
  · rcases l with _ | ⟨⟨az, att⟩, _ | ⟨e2, l2⟩⟩
    · simp [completeUnique] at h
    · rcases az with _ | az
      · simp [completeUnique] at h
      · rcases att with _ | ⟨_ | ii⟩
        · simp [completeUnique] at h
        · simp [completeUnique] at h
        · simp only [completeUnique, Option.some.injEq, Prod.mk.injEq] at h
          simp [inspect, aws_ToString, h.1, h.2]
    · simp [completeUnique] at h

theorem inspect_of_not_completeUnique {reply : Reply DescribeNetworkInterfacesOutput}
    (h : completeUnique reply = none) : ∃ line, inspect reply = Sum.inl line := by
  rcases reply with e | ⟨⟨l⟩⟩
  · exact ⟨e, rfl⟩
  · rcases l with _ | ⟨⟨az, att⟩, _ | ⟨e2, l2⟩⟩
    · exact ⟨_, rfl⟩
    · rcases az with _ | az
      · exact ⟨_, rfl⟩
      · rcases att with _ | ⟨_ | ii⟩
        · exact ⟨_, rfl⟩
        · exact ⟨_, rfl⟩
        · simp [completeUnique] at h
    · exact ⟨_, rfl⟩

theorem noMatch_iff_completeUnique_none (reply : Reply DescribeNetworkInterfacesOutput) :
    NoMatch reply ↔ completeUnique reply = none := by
  unfold NoMatch
  rcases reply with e | ⟨⟨l⟩⟩
  · simp [completeUnique]
  · rcases l with _ | ⟨⟨az, att⟩, _ | ⟨e2, l2⟩⟩
    · simp [completeUnique]
    · rcases az with _ | az
      · simp [completeUnique]
      · rcases att with _ | ⟨_ | ii⟩
        · simp [completeUnique]
        · simp [completeUnique]
        · simp [completeUnique]
    · simp [completeUnique]

/-! ## One iteration of the lookup loop -/

theorem lookupLoop_cons_hit {PK W : Type} (svc : Services PK W) (host f : String)
    (rest : List String) (w : W) {z i : String}
    (h : completeUnique (svc.DescribeNetworkInterfaces w (filterQuery f host)).1 = some (z, i)) :
    lookupLoop svc host (f :: rest) w =
      { availabilityZone := z, instanceId := i,
        world := (svc.DescribeNetworkInterfaces w (filterQuery f host)).2,
        trace := [Event.describeNetworkInterfaces (filterQuery f host)] } := by
  simp only [lookupLoop, inspect_of_completeUnique h]

theorem lookupLoop_cons_skip {PK W : Type} (svc : Services PK W) (host f : String)
    (rest : List String) (w : W)
    (h : completeUnique (svc.DescribeNetworkInterfaces w (filterQuery f host)).1 = none) :
    ∃ line, lookupLoop svc host (f :: rest) w =
      { lookupLoop svc host rest (svc.DescribeNetworkInterfaces w (filterQuery f host)).2 with
        trace := Event.describeNetworkInterfaces (filterQuery f host) :: Event.log line ::
          (lookupLoop svc host rest
            (svc.DescribeNetworkInterfaces w (filterQuery f host)).2).trace } := by
  obtain ⟨line, hline⟩ := inspect_of_not_completeUnique h
  exact ⟨line, by simp only [lookupLoop, hline]⟩

/-! ## The lookup loop as a whole -/

theorem queriesIssued_cons_hit {PK W : Type} (svc : Services PK W) (host f : String)
    (rest : List String) (w : W) {p : String × String}
    (h : completeUnique (svc.DescribeNetworkInterfaces w (filterQuery f host)).1 = some p) :
    queriesIssued svc host (f :: rest) w = 1 := by
  simp [queriesIssued, answers, List.findIdx_cons, h]

theorem queriesIssued_cons_skip {PK W : Type} (svc : Services PK W) (host f : String)
    (rest : List String) (w : W)
    (h : completeUnique (svc.DescribeNetworkInterfaces w (filterQuery f host)).1 = none) :
    queriesIssued svc host (f :: rest) w =
      queriesIssued svc host rest (svc.DescribeNetworkInterfaces w (filterQuery f host)).2 + 1 := by
  simp [queriesIssued, answers, List.findIdx_cons, h, Nat.add_min_add_right]

/-- The variables left by the loop are those of the first reply with a complete
unique record, and the zero values when there is none. -/
theorem lookupLoop_resolved {PK W : Type} (svc : Services PK W) (host : String)
    (names : List String) (w : W) :
    ((lookupLoop svc host names w).availabilityZone, (lookupLoop svc host names w).instanceId) =
      ((answers svc host names w).findSome? completeUnique).getD ("", "") := by
  induction names generalizing w with
  | nil => rfl
  | cons f rest ih =>
    cases h : completeUnique (svc.DescribeNetworkInterfaces w (filterQuery f host)).1 with
    | none =>
      obtain ⟨line, hl⟩ := lookupLoop_cons_skip svc host f rest w h
      rw [hl]
      simp only [answers, List.findSome?_cons, h]
      exact ih _
    | some p =>
      obtain ⟨z, i⟩ := p
      rw [lookupLoop_cons_hit svc host f rest w h]
      simp [answers, List.findSome?_cons, h]

/-- The inventory queries of the loop: one per filter name, in order, up to and
including the first one answered by a complete unique record. -/
theorem lookupLoop_describeInputs {PK W : Type} (svc : Services PK W) (host : String)
    (names : List String) (w : W) :
    describeInputs (lookupLoop svc host names w).trace =
      (names.take (queriesIssued svc host names w)).map (fun f => filterQuery f host) := by
  induction names generalizing w with
  | nil => simp [lookupLoop, describeInputs]
  | cons f rest ih =>
    cases h : completeUnique (svc.DescribeNetworkInterfaces w (filterQuery f host)).1 with
    | none =>
      obtain ⟨line, hl⟩ := lookupLoop_cons_skip svc host f rest w h
      rw [hl, queriesIssued_cons_skip svc host f rest w h]
      have := ih (svc.DescribeNetworkInterfaces w (filterQuery f host)).2
      simp only [describeInputs] at this
      simp [describeInputs, this]
    | some p =>
      obtain ⟨z, i⟩ := p
      rw [lookupLoop_cons_hit svc host f rest w h, queriesIssued_cons_hit svc host f rest w h]
      simp [describeInputs]

/-- The loop never calls the credential service. -/
theorem lookupLoop_sendInputs {PK W : Type} (svc : Services PK W) (host : String)
    (names : List String) (w : W) :
    sendInputs (lookupLoop svc host names w).trace = [] := by
  induction names generalizing w with
  | nil => simp [lookupLoop, sendInputs]
  | cons f rest ih =>
    cases h : completeUnique (svc.DescribeNetworkInterfaces w (filterQuery f host)).1 with
    | none =>
      obtain ⟨line, hl⟩ := lookupLoop_cons_skip svc host f rest w h
      rw [hl]
      have := ih (svc.DescribeNetworkInterfaces w (filterQuery f host)).2
      simp only [sendInputs] at this
      simp [sendInputs, this]
    | some p =>
      obtain ⟨z, i⟩ := p
      rw [lookupLoop_cons_hit svc host f rest w h]
      simp [sendInputs]

theorem answers_append {PK W : Type} (svc : Services PK W) (host : String)
    (pre rest : List String) (w : W) :
    answers svc host (pre ++ rest) w =
      answers svc host pre w ++ answers svc host rest (worldAfter svc host pre w) := by
  induction pre generalizing w with
  | nil => rfl
  | cons f pre ih => simp [answers, worldAfter, ih]

/-- How many queries the loop issues, read off the replies alone. -/
theorem queriesIssued_spec {PK W : Type} (svc : Services PK W) (host : String)
    (names : List String) (w : W) :
    queriesIssued svc host names w ≤ names.length ∧
    (names ≠ [] → 1 ≤ queriesIssued svc host names w) ∧
    (∀ r ∈ (answers svc host names w).take (queriesIssued svc host names w - 1),
      completeUnique r = none) ∧
    ((∃ r ∈ answers svc host names w, (completeUnique r).isSome = true) →
      ∃ r p, (answers svc host names w)[queriesIssued svc host names w - 1]? = some r ∧
        completeUnique r = some p) ∧
    ((∀ r ∈ answers svc host names w, completeUnique r = none) →
      queriesIssued svc host names w = names.length) := by
  induction names generalizing w with
  | nil => simp [queriesIssued, answers]
  | cons f rest ih =>
    cases h : completeUnique (svc.DescribeNetworkInterfaces w (filterQuery f host)).1 with
    | none =>
      obtain ⟨h1, h2, h3, h4, h5⟩ := ih (svc.DescribeNetworkInterfaces w (filterQuery f host)).2
      rw [queriesIssued_cons_skip svc host f rest w h]
      refine ⟨by simpa using h1, by simp, ?_, ?_, ?_⟩
      · intro r hr
        simp only [answers, Nat.add_sub_cancel] at hr
        rcases rest with _ | ⟨g, rest⟩
        · simp [queriesIssued, answers] at hr
        · have hpos := h2 (by simp)
          obtain ⟨m, hm⟩ : ∃ m, queriesIssued svc host (g :: rest)
              (svc.DescribeNetworkInterfaces w (filterQuery f host)).2 = m + 1 :=
            ⟨_, (Nat.sub_add_cancel hpos).symm⟩
          rw [hm, List.take_succ_cons, List.mem_cons] at hr
          rcases hr with rfl | hr
          · exact h
          · apply h3
            simpa [hm] using hr
      · rintro ⟨r, hr, hsome⟩
        simp only [answers, List.mem_cons] at hr
        rcases hr with rfl | hr
        · simp [h] at hsome
        · obtain ⟨r2, p, hget, hp⟩ := h4 ⟨r, hr, hsome⟩
          have hne : rest ≠ [] := by
            rintro rfl
            simp [answers] at hr
          have hpos := h2 hne
          obtain ⟨m, hm⟩ : ∃ m, queriesIssued svc host rest
              (svc.DescribeNetworkInterfaces w (filterQuery f host)).2 = m + 1 :=
            ⟨_, (Nat.sub_add_cancel hpos).symm⟩
          refine ⟨r2, p, ?_, hp⟩
          simp only [answers, Nat.add_sub_cancel]
          rw [hm] at hget ⊢
          simpa using hget
      · intro hall
        simp only [answers, List.mem_cons, forall_eq_or_imp] at hall
        simp [h5 hall.2]
    | some p =>
      rw [queriesIssued_cons_hit svc host f rest w h]
      refine ⟨by simp, by simp, by simp, ?_, ?_⟩
      · intro _
        exact ⟨_, p, by simp [answers], h⟩
      · intro hall
        have := hall (svc.DescribeNetworkInterfaces w (filterQuery f host)).1 (by simp [answers])
        simp [h] at this

/-! ## The forwarding hook -/

/-- A run on a context without a string user or without a public key. -/
theorem callback_invalid {PK W : Type} (svc : Services PK W) (w : W) (ctx : Context PK)
    (host : String) (port : Nat)
    (h : (∀ u, ctx.Value ContextKey.ContextKeyUser ≠ Value.string u) ∨
      (∀ k, ctx.Value ContextKey.ContextKeyPublicKey ≠ Value.publicKey k)) :
    (LocalPortForwardingCallback svc w ctx host port).verdict = false ∧
    (LocalPortForwardingCallback svc w ctx host port).world = w ∧
    remoteCalls (LocalPortForwardingCallback svc w ctx host port).trace = [] ∧
    describeInputs (LocalPortForwardingCallback svc w ctx host port).trace = [] ∧
    sendInputs (LocalPortForwardingCallback svc w ctx host port).trace = [] := by
  unfold LocalPortForwardingCallback
  cases hu : ctx.Value ContextKey.ContextKeyUser with
  | nil => simp [remoteCalls, isRemoteCall, describeInputs, sendInputs]
  | publicKey k => simp [remoteCalls, isRemoteCall, describeInputs, sendInputs]
  | other t => simp [remoteCalls, isRemoteCall, describeInputs, sendInputs]
  | string u =>
    cases hk : ctx.Value ContextKey.ContextKeyPublicKey with
    | nil => simp [remoteCalls, isRemoteCall, describeInputs, sendInputs]
    | string s => simp [remoteCalls, isRemoteCall, describeInputs, sendInputs]
    | other t => simp [remoteCalls, isRemoteCall, describeInputs, sendInputs]
    | publicKey k =>
      rcases h with h | h
      · exact absurd hu (h u)
      · exact absurd hk (h k)

/-- A run on a context with a string user and a public key: the entry log
line, the lookup loop, one credential call, and log lines only after it. -/
theorem callback_valid {PK W : Type} (svc : Services PK W) (w : W) (ctx : Context PK)
    (host : String) (port : Nat) (u : String) (K : PK)
    (hu : ctx.Value ContextKey.ContextKeyUser = Value.string u)
    (hk : ctx.Value ContextKey.ContextKeyPublicKey = Value.publicKey K) :
    ∃ (line : String) (logs : List String),
      (LocalPortForwardingCallback svc w ctx host port).trace =
        Event.log line :: ((lookupLoop svc host filterNames w).trace ++
          Event.sendSSHPublicKey
            (sendInput (lookupLoop svc host filterNames w).availabilityZone
              (lookupLoop svc host filterNames w).instanceId u (svc.MarshalAuthorizedKey K)) ::
          logs.map Event.log) ∧
      (LocalPortForwardingCallback svc w ctx host port).world =
        (svc.SendSSHPublicKey (lookupLoop svc host filterNames w).world
          (sendInput (lookupLoop svc host filterNames w).availabilityZone
            (lookupLoop svc host filterNames w).instanceId u (svc.MarshalAuthorizedKey K))).2 ∧
      ((LocalPortForwardingCallback svc w ctx host port).verdict = true ↔
        (svc.SendSSHPublicKey (lookupLoop svc host filterNames w).world
          (sendInput (lookupLoop svc host filterNames w).availabilityZone
            (lookupLoop svc host filterNames w).instanceId u (svc.MarshalAuthorizedKey K))).1 =
          Reply.ok { Success := true }) := by
  unfold LocalPortForwardingCallback
  simp only [hu, hk]
  cases hr : (svc.SendSSHPublicKey (lookupLoop svc host filterNames w).world
      (sendInput (lookupLoop svc host filterNames w).availabilityZone
        (lookupLoop svc host filterNames w).instanceId u (svc.MarshalAuthorizedKey K))).1 with
  | err e =>
    exact ⟨"LocalPortForwardingCallback(_, " ++ host ++ ", " ++ toString port ++ ")", [e],
      by simp⟩
  | ok out =>
    rcases out with ⟨_ | _⟩
    · exact ⟨"LocalPortForwardingCallback(_, " ++ host ++ ", " ++ toString port ++ ")",
        ["!out.Success"], by simp⟩
    · exact ⟨"LocalPortForwardingCallback(_, " ++ host ++ ", " ++ toString port ++ ")", [],
        by simp⟩

theorem sendInputs_log_map (logs : List String) : sendInputs (logs.map Event.log) = [] := by
  induction logs with
  | nil => rfl
  | cons l logs ih =>
    simp only [sendInputs] at ih
    simp [sendInputs, ih]

theorem describeInputs_log_map (logs : List String) :
    describeInputs (logs.map Event.log) = [] := by
  induction logs with
  | nil => rfl
  | cons l logs ih =>
    simp only [describeInputs] at ih
    simp [describeInputs, ih]

theorem remoteCalls_log_map (logs : List String) : remoteCalls (logs.map Event.log) = [] := by
  induction logs with
  | nil => rfl
  | cons l logs ih =>
    simp only [remoteCalls] at ih
    simp [remoteCalls, isRemoteCall, ih]

theorem sendInputs_append (s t : List Event) :
    sendInputs (s ++ t) = sendInputs s ++ sendInputs t := by
  simp [sendInputs, List.filterMap_append]

theorem describeInputs_append (s t : List Event) :
    describeInputs (s ++ t) = describeInputs s ++ describeInputs t := by
  simp [describeInputs, List.filterMap_append]

theorem remoteCalls_append (s t : List Event) :
    remoteCalls (s ++ t) = remoteCalls s ++ remoteCalls t := by
  simp [remoteCalls, List.filter_append]

/-- The credential calls of a run on a valid context: exactly one. -/
theorem callback_sendInputs {PK W : Type} (svc : Services PK W) (w : W) (ctx : Context PK)
    (host : String) (port : Nat) (u : String) (K : PK)
    (hu : ctx.Value ContextKey.ContextKeyUser = Value.string u)
    (hk : ctx.Value ContextKey.ContextKeyPublicKey = Value.publicKey K) :
    sendInputs (LocalPortForwardingCallback svc w ctx host port).trace =
      [sendInput (lookupLoop svc host filterNames w).availabilityZone
        (lookupLoop svc host filterNames w).instanceId u (svc.MarshalAuthorizedKey K)] := by
  obtain ⟨line, logs, ht, -, -⟩ := callback_valid svc w ctx host port u K hu hk
  rw [ht]
  have h1 : ∀ (e : Event) (t : List Event), sendInputs (e :: t) = sendInputs ([e] ++ t) :=
    fun _ _ => rfl
  rw [h1, sendInputs_append, sendInputs_append, h1 (Event.sendSSHPublicKey _),
    sendInputs_append, sendInputs_log_map, lookupLoop_sendInputs]
  rfl

/-- The inventory queries of a run on a valid context are those of the loop. -/
theorem callback_describeInputs {PK W : Type} (svc : Services PK W) (w : W)
    (ctx : Context PK) (host : String) (port : Nat) (u : String) (K : PK)
    (hu : ctx.Value ContextKey.ContextKeyUser = Value.string u)
    (hk : ctx.Value ContextKey.ContextKeyPublicKey = Value.publicKey K) :
    describeInputs (LocalPortForwardingCallback svc w ctx host port).trace =
      describeInputs (lookupLoop svc host filterNames w).trace := by
  obtain ⟨line, logs, ht, -, -⟩ := callback_valid svc w ctx host port u K hu hk
  rw [ht]
  have h1 : ∀ (e : Event) (t : List Event),
      describeInputs (e :: t) = describeInputs ([e] ++ t) := fun _ _ => rfl
  rw [h1, describeInputs_append, describeInputs_append, h1 (Event.sendSSHPublicKey _),
    describeInputs_append, describeInputs_log_map]
  simp [describeInputs]

/-- The remote calls of a run on a valid context: those of the loop, then the
credential call. -/
theorem callback_remoteCalls {PK W : Type} (svc : Services PK W) (w : W) (ctx : Context PK)
    (host : String) (port : Nat) (u : String) (K : PK)
    (hu : ctx.Value ContextKey.ContextKeyUser = Value.string u)
    (hk : ctx.Value ContextKey.ContextKeyPublicKey = Value.publicKey K) :
    remoteCalls (LocalPortForwardingCallback svc w ctx host port).trace =
      remoteCalls (lookupLoop svc host filterNames w).trace ++
        [Event.sendSSHPublicKey
          (sendInput (lookupLoop svc host filterNames w).availabilityZone
            (lookupLoop svc host filterNames w).instanceId u (svc.MarshalAuthorizedKey K))] := by
  obtain ⟨line, logs, ht, -, -⟩ := callback_valid svc w ctx host port u K hu hk
  rw [ht]
  have h1 : ∀ (e : Event) (t : List Event), remoteCalls (e :: t) = remoteCalls ([e] ++ t) :=
    fun _ _ => rfl
  rw [h1, remoteCalls_append, remoteCalls_append, h1 (Event.sendSSHPublicKey _),
    remoteCalls_append, remoteCalls_log_map]
  simp [remoteCalls, isRemoteCall]

/-- A context is either valid (a string user and a public key) or not. -/
theorem context_cases {PK : Type} (ctx : Context PK) :
    (∃ u K, ctx.Value ContextKey.ContextKeyUser = Value.string u ∧
      ctx.Value ContextKey.ContextKeyPublicKey = Value.publicKey K) ∨
    ((∀ u, ctx.Value ContextKey.ContextKeyUser ≠ Value.string u) ∨
      (∀ k, ctx.Value ContextKey.ContextKeyPublicKey ≠ Value.publicKey k)) := by
  cases hu : ctx.Value ContextKey.ContextKeyUser with
  | nil => simp
  | publicKey k => simp
  | other t => simp
  | string u =>
    cases hk : ctx.Value ContextKey.ContextKeyPublicKey with
    | nil => simp
    | string s => simp
    | other t => simp
    | publicKey k => simp

/-- Filters whose replies carry no complete unique record are passed over: the
loop over `pre ++ rest` ends as the loop over `rest` started in the world the
queries for `pre` left behind, after one query per name of `pre`. -/
theorem lookupLoop_append_skip {PK W : Type} (svc : Services PK W) (host : String)
    (pre rest : List String) (w : W)
    (h : ∀ r ∈ answers svc host pre w, completeUnique r = none) :
    (lookupLoop svc host (pre ++ rest) w).availabilityZone =
      (lookupLoop svc host rest (worldAfter svc host pre w)).availabilityZone ∧
    (lookupLoop svc host (pre ++ rest) w).instanceId =
      (lookupLoop svc host rest (worldAfter svc host pre w)).instanceId ∧
    (lookupLoop svc host (pre ++ rest) w).world =
      (lookupLoop svc host rest (worldAfter svc host pre w)).world ∧
    remoteCalls (lookupLoop svc host (pre ++ rest) w).trace =
      pre.map (fun f => Event.describeNetworkInterfaces (filterQuery f host)) ++
        remoteCalls (lookupLoop svc host rest (worldAfter svc host pre w)).trace := by
  induction pre generalizing w with
  | nil => simp [worldAfter]
  | cons f pre ih =>
    simp only [answers, List.mem_cons, forall_eq_or_imp] at h
    obtain ⟨line, hl⟩ := lookupLoop_cons_skip svc host f (pre ++ rest) w h.1
    obtain ⟨h1, h2, h3, h4⟩ := ih (svc.DescribeNetworkInterfaces w (filterQuery f host)).2 h.2
    rw [List.cons_append, hl]
    refine ⟨h1, h2, h3, ?_⟩
    simp only [remoteCalls] at h4
    simp [remoteCalls, isRemoteCall, worldAfter, h4]

theorem filterQuery_injective (host : String) :
    Function.Injective (fun f => filterQuery f host) := by
  intro f g h
  simpa [filterQuery, aws_String] using h

theorem filterNames_nodup : filterNames.Nodup := by decide

/-- When no filter yields a complete unique record, a run on a valid context
still makes its credential call, with an empty zone and an empty instance id,
and the verdict is that call's outcome. -/
theorem callback_unresolved {PK W : Type} (svc : Services PK W) (w : W) (ctx : Context PK)
    (host : String) (port : Nat) (u : String) (K : PK)
    (hu : ctx.Value ContextKey.ContextKeyUser = Value.string u)
    (hk : ctx.Value ContextKey.ContextKeyPublicKey = Value.publicKey K)
    (hnone : ∀ r ∈ answers svc host filterNames w, completeUnique r = none) :
    sendInputs (LocalPortForwardingCallback svc w ctx host port).trace =
      [sendInput "" "" u (svc.MarshalAuthorizedKey K)] ∧
    ((LocalPortForwardingCallback svc w ctx host port).verdict = true ↔
      (svc.SendSSHPublicKey (lookupLoop svc host filterNames w).world
        (sendInput "" "" u (svc.MarshalAuthorizedKey K))).1 = Reply.ok { Success := true }) := by
  have h := lookupLoop_resolved svc host filterNames w
  rw [List.findSome?_eq_none_iff.2 hnone] at h
  simp only [Option.getD_none, Prod.mk.injEq] at h
  obtain ⟨-, -, -, -, hv⟩ := callback_valid svc w ctx host port u K hu hk
  have hs := callback_sendInputs svc w ctx host port u K hu hk
  rw [h.1, h.2] at hs hv
  exact ⟨hs, hv⟩

/-! ## The claims -/

/-- C1 (code defect): the claim says the hook returns true only if some filter
yielded a complete unique record.  Here the inventory returns zero records
under all four filters, the credential service reports success, and the hook
returns true: the loop falls through to the credential call with both
variables still empty, and nothing checks that an instance was resolved. -/
theorem C1_unresolved_destination_is_authorized :
    (∀ r ∈ answers (scripted [] (fun _ => Reply.ok { Success := true })) "10.0.1.5"
        filterNames 0, completeUnique r = none) ∧
    (LocalPortForwardingCallback (scripted [] (fun _ => Reply.ok { Success := true })) 0
      (connection "alice" "K") "10.0.1.5" 22).verdict = true := by
  decide

/-- C2 (code defect): the claim says that when no filter yields a complete
unique record the credential service is not called.  Here the destination
matches two records under the first filter and none under the others; the hook
denies, but only after calling the credential service once, with an empty zone
and an empty instance id. -/
theorem C2_unresolved_destination_reaches_credential_service :
    (∀ r ∈ answers
        (scripted
          [Reply.ok { NetworkInterfaces := [record "us-east-1a" "i-0abc", record "us-east-1b" "i-0def"] }]
          (fun input =>
            if input.InstanceId = some "" then Reply.err "ValidationException"
            else Reply.ok { Success := true }))
        "10.0.1.5" filterNames 0, completeUnique r = none) ∧
    (LocalPortForwardingCallback
      (scripted
        [Reply.ok { NetworkInterfaces := [record "us-east-1a" "i-0abc", record "us-east-1b" "i-0def"] }]
        (fun input =>
          if input.InstanceId = some "" then Reply.err "ValidationException"
          else Reply.ok { Success := true }))
      0 (connection "alice" "K") "10.0.1.5" 22).verdict = false ∧
    sendInputs (LocalPortForwardingCallback
      (scripted
        [Reply.ok { NetworkInterfaces := [record "us-east-1a" "i-0abc", record "us-east-1b" "i-0def"] }]
        (fun input =>
          if input.InstanceId = some "" then Reply.err "ValidationException"
          else Reply.ok { Success := true }))
      0 (connection "alice" "K") "10.0.1.5" 22).trace =
      [ { AvailabilityZone := some "", InstanceId := some "",
          InstanceOSUser := some "alice", SSHPublicKey := some "K" } ] := by
  decide

/-- C3: on a context holding the string user `u` and the public key `K`, for a
destination whose first complete unique record (over the four filters, in
order) has zone `z` and instance id `i`, the hook calls the credential service
exactly once, with AvailabilityZone = z, InstanceId = i, InstanceOSUser = u and
SSHPublicKey = MarshalAuthorizedKey(K). -/
theorem C3_credential_call_arguments {PK W : Type} (svc : Services PK W) (w : W)
    (ctx : Context PK) (host : String) (port : Nat) (u : String) (K : PK) (z i : String)
    (hu : ctx.Value ContextKey.ContextKeyUser = Value.string u)
    (hk : ctx.Value ContextKey.ContextKeyPublicKey = Value.publicKey K)
    (hres : (answers svc host filterNames w).findSome? completeUnique = some (z, i)) :
    sendInputs (LocalPortForwardingCallback svc w ctx host port).trace =
      [ { AvailabilityZone := some z, InstanceId := some i,
          InstanceOSUser := some u, SSHPublicKey := some (svc.MarshalAuthorizedKey K) } ] := by
  rw [callback_sendInputs svc w ctx host port u K hu hk]
  have h := lookupLoop_resolved svc host filterNames w
  rw [hres] at h
  simp only [Option.getD_some, Prod.mk.injEq] at h
  simp [sendInput, aws_String, h.1, h.2]

/-- A run of C3: "10.0.1.5" matches one record (us-east-1a, i-0abc) under the first
filter; the single credential call carries that zone and instance, "alice" and
the key text. -/
theorem C3_credential_call_arguments_witness :
    sendInputs (LocalPortForwardingCallback
      (scripted [Reply.ok { NetworkInterfaces := [record "us-east-1a" "i-0abc"] }]
        (fun _ => Reply.ok { Success := true }))
      0 (connection "alice" "K") "10.0.1.5" 22).trace =
      [ { AvailabilityZone := some "us-east-1a", InstanceId := some "i-0abc",
          InstanceOSUser := some "alice", SSHPublicKey := some "K" } ] :=
  C3_credential_call_arguments
    (scripted [Reply.ok { NetworkInterfaces := [record "us-east-1a" "i-0abc"] }]
      (fun _ => Reply.ok { Success := true }))
    0 (connection "alice" "K") "10.0.1.5" 22 "alice" "K" "us-east-1a" "i-0abc" rfl rfl
    (by decide)

/-- C4: the zone and instance id left by the lookup loop are those of the
single record returned under the earliest filter, in the fixed order, whose
reply is one record with a zone, an attachment and an attachment instance id:
whatever the filters after it would return, they do not change the result. -/
theorem C4_earliest_complete_filter_wins {PK W : Type} (svc : Services PK W) (w : W)
    (host : String) (pre post : List String) (f z i : String)
    (hsplit : filterNames = pre ++ f :: post)
    (hearlier : ∀ r ∈ answers svc host pre w, completeUnique r = none)
    (hhit : completeUnique
      (svc.DescribeNetworkInterfaces (worldAfter svc host pre w) (filterQuery f host)).1 =
        some (z, i)) :
    (lookupLoop svc host filterNames w).availabilityZone = z ∧
    (lookupLoop svc host filterNames w).instanceId = i := by
  obtain ⟨h1, h2, -, -⟩ := lookupLoop_append_skip svc host pre (f :: post) w hearlier
  rw [hsplit, h1, h2, lookupLoop_cons_hit svc host f post _ hhit]
  exact ⟨rfl, rfl⟩

/-- A run of C4: two records under the first filter, one complete record under
the second and another under the third; the second filter decides. -/
theorem C4_earliest_complete_filter_wins_witness :
    (lookupLoop
      (scripted
        [ Reply.ok { NetworkInterfaces := [record "a" "i-1", record "b" "i-2"] },
          Reply.ok { NetworkInterfaces := [record "us-east-1a" "i-0abc"] },
          Reply.ok { NetworkInterfaces := [record "eu-west-1b" "i-0fff"] } ]
        (fun _ => Reply.ok { Success := true }))
      "ip-10-0-1-5.ec2.internal" filterNames 0).availabilityZone = "us-east-1a" ∧
    (lookupLoop
      (scripted
        [ Reply.ok { NetworkInterfaces := [record "a" "i-1", record "b" "i-2"] },
          Reply.ok { NetworkInterfaces := [record "us-east-1a" "i-0abc"] },
          Reply.ok { NetworkInterfaces := [record "eu-west-1b" "i-0fff"] } ]
        (fun _ => Reply.ok { Success := true }))
      "ip-10-0-1-5.ec2.internal" filterNames 0).instanceId = "i-0abc" :=
  C4_earliest_complete_filter_wins
    (scripted
      [ Reply.ok { NetworkInterfaces := [record "a" "i-1", record "b" "i-2"] },
        Reply.ok { NetworkInterfaces := [record "us-east-1a" "i-0abc"] },
        Reply.ok { NetworkInterfaces := [record "eu-west-1b" "i-0fff"] } ]
      (fun _ => Reply.ok { Success := true }))
    0 "ip-10-0-1-5.ec2.internal" ["addresses.private-ip-address"]
    ["association.public-ip", "association.public-dns-name"] "addresses.private-dns-name"
    "us-east-1a" "i-0abc" rfl (by decide) (by decide)

/-- C5: when the loop reaches a filter of the ordered list and its query
errors, or returns zero records, or two or more records, or one record whose
zone, attachment or attachment instance id is absent, the zone and instance id
left by the loop are those of the lookup over the later filters only, run in
the world the queries so far left behind; the queries for those later filters
are still issued, and on a context with a user and a key the hook still goes on
to its credential call. -/
theorem C5_failed_filter_is_skipped {PK W : Type} (svc : Services PK W) (w : W)
    (host : String) (pre later : List String) (f : String)
    (hsplit : filterNames = pre ++ f :: later)
    (hreached : ∀ r ∈ answers svc host pre w, completeUnique r = none)
    (hfail : NoMatch
      (svc.DescribeNetworkInterfaces (worldAfter svc host pre w) (filterQuery f host)).1) :
    (lookupLoop svc host filterNames w).availabilityZone =
      (lookupLoop svc host later (worldAfter svc host (pre ++ [f]) w)).availabilityZone ∧
    (lookupLoop svc host filterNames w).instanceId =
      (lookupLoop svc host later (worldAfter svc host (pre ++ [f]) w)).instanceId ∧
    remoteCalls (lookupLoop svc host filterNames w).trace =
      (pre ++ [f]).map (fun g => Event.describeNetworkInterfaces (filterQuery g host)) ++
        remoteCalls (lookupLoop svc host later (worldAfter svc host (pre ++ [f]) w)).trace ∧
    ∀ (ctx : Context PK) (port : Nat) (u : String) (K : PK),
      ctx.Value ContextKey.ContextKeyUser = Value.string u →
      ctx.Value ContextKey.ContextKeyPublicKey = Value.publicKey K →
      remoteCalls (LocalPortForwardingCallback svc w ctx host port).trace =
        (pre ++ [f]).map (fun g => Event.describeNetworkInterfaces (filterQuery g host)) ++
          remoteCalls (lookupLoop svc host later (worldAfter svc host (pre ++ [f]) w)).trace ++
          [Event.sendSSHPublicKey
            (sendInput
              (lookupLoop svc host later (worldAfter svc host (pre ++ [f]) w)).availabilityZone
              (lookupLoop svc host later (worldAfter svc host (pre ++ [f]) w)).instanceId
              u (svc.MarshalAuthorizedKey K))] := by
  have hall : ∀ r ∈ answers svc host (pre ++ [f]) w, completeUnique r = none := by
    intro r hr
    rw [answers_append, List.mem_append] at hr
    rcases hr with hr | hr
    · exact hreached r hr
    · simp only [answers, List.mem_singleton] at hr
      rw [hr]
      exact (noMatch_iff_completeUnique_none _).1 hfail
  have hnames : filterNames = (pre ++ [f]) ++ later := by simp [hsplit]
  obtain ⟨h1, h2, -, h4⟩ := lookupLoop_append_skip svc host (pre ++ [f]) later w hall
  rw [← hnames] at h1 h2 h4
  refine ⟨h1, h2, h4, ?_⟩
  intro ctx port u K hu hk
  rw [callback_remoteCalls svc w ctx host port u K hu hk, h1, h2, h4]

/-- A run of C5: the first query errors, the second returns one record without
zone or attachment, the third returns one complete record, which is the result. -/
theorem C5_failed_filter_is_skipped_witness :
    (lookupLoop
      (scripted
        [ Reply.err "RequestError: timeout",
          Reply.ok { NetworkInterfaces := [ { AvailabilityZone := none, Attachment := none } ] },
          Reply.ok { NetworkInterfaces := [record "us-east-1a" "i-0abc"] } ]
        (fun _ => Reply.ok { Success := true }))
      "203.0.113.7" filterNames 0).availabilityZone = "us-east-1a" ∧
    (lookupLoop
      (scripted
        [ Reply.err "RequestError: timeout",
          Reply.ok { NetworkInterfaces := [ { AvailabilityZone := none, Attachment := none } ] },
          Reply.ok { NetworkInterfaces := [record "us-east-1a" "i-0abc"] } ]
        (fun _ => Reply.ok { Success := true }))
      "203.0.113.7" filterNames 0).instanceId = "i-0abc" :=
  have h := C5_failed_filter_is_skipped
    (scripted
      [ Reply.err "RequestError: timeout",
        Reply.ok { NetworkInterfaces := [ { AvailabilityZone := none, Attachment := none } ] },
        Reply.ok { NetworkInterfaces := [record "us-east-1a" "i-0abc"] } ]
      (fun _ => Reply.ok { Success := true }))
    0 "203.0.113.7" ["addresses.private-ip-address"]
    ["association.public-ip", "association.public-dns-name"] "addresses.private-dns-name"
    rfl (by decide) (by decide)
  ⟨h.1.trans rfl, h.2.1.trans rfl⟩

/-- C6: on a connection context whose user value is absent (nil) or not a
string, or whose public-key value is absent (nil) or not a public key, the
hook returns false and issues no inventory query and no credential call, for
every destination host and port. -/
theorem C6_invalid_context_denied_without_remote_calls {PK W : Type} (svc : Services PK W)
    (w : W) (ctx : Context PK) (host : String) (port : Nat)
    (hbad : (∀ u, ctx.Value ContextKey.ContextKeyUser ≠ Value.string u) ∨
      (∀ k, ctx.Value ContextKey.ContextKeyPublicKey ≠ Value.publicKey k)) :
    (LocalPortForwardingCallback svc w ctx host port).verdict = false ∧
    remoteCalls (LocalPortForwardingCallback svc w ctx host port).trace = [] ∧
    describeInputs (LocalPortForwardingCallback svc w ctx host port).trace = [] ∧
    sendInputs (LocalPortForwardingCallback svc w ctx host port).trace = [] := by
  obtain ⟨h1, -, h3, h4, h5⟩ := callback_invalid svc w ctx host port hbad
  exact ⟨h1, h3, h4, h5⟩

/-- A run of C6: the context holds a user but a nil public key; the hook denies
and calls neither service, although the destination would resolve. -/
theorem C6_invalid_context_denied_without_remote_calls_witness :
    (LocalPortForwardingCallback
      (scripted [Reply.ok { NetworkInterfaces := [record "us-east-1a" "i-0abc"] }]
        (fun _ => Reply.ok { Success := true }))
      0 { Value := fun k =>
            match k with
            | ContextKey.ContextKeyUser => Value.string "alice"
            | ContextKey.ContextKeyPublicKey => Value.nil }
      "10.0.1.5" 22).verdict = false ∧
    remoteCalls (LocalPortForwardingCallback
      (scripted [Reply.ok { NetworkInterfaces := [record "us-east-1a" "i-0abc"] }]
        (fun _ => Reply.ok { Success := true }))
      0 { Value := fun k =>
            match k with
            | ContextKey.ContextKeyUser => Value.string "alice"
            | ContextKey.ContextKeyPublicKey => Value.nil }
      "10.0.1.5" 22).trace = [] :=
  have h := C6_invalid_context_denied_without_remote_calls
    (scripted [Reply.ok { NetworkInterfaces := [record "us-east-1a" "i-0abc"] }]
      (fun _ => Reply.ok { Success := true }))
    0 { Value := fun k =>
          match k with
          | ContextKey.ContextKeyUser => Value.string "alice"
          | ContextKey.ContextKeyPublicKey => Value.nil }
    "10.0.1.5" 22 (Or.inr (fun _ hk => Value.noConfusion hk))
  ⟨h.1, h.2.1⟩

/-- C7: in every run of the hook that reaches the credential call (the call
with input `input` is in its trace), that call is the only credential call of
the run, and its reply alone decides the verdict: an error gives false,
Success = false gives false, and the verdict is true exactly when the reply is
no error with Success = true. -/
theorem C7_verdict_decided_by_single_credential_call {PK W : Type} (svc : Services PK W)
    (w : W) (ctx : Context PK) (host : String) (port : Nat) (input : SendSSHPublicKeyInput)
    (hreach : input ∈ sendInputs (LocalPortForwardingCallback svc w ctx host port).trace) :
    sendInputs (LocalPortForwardingCallback svc w ctx host port).trace = [input] ∧
    (∀ e, (svc.SendSSHPublicKey (lookupLoop svc host filterNames w).world input).1 =
        Reply.err e →
      (LocalPortForwardingCallback svc w ctx host port).verdict = false) ∧
    ((svc.SendSSHPublicKey (lookupLoop svc host filterNames w).world input).1 =
        Reply.ok { Success := false } →
      (LocalPortForwardingCallback svc w ctx host port).verdict = false) ∧
    ((LocalPortForwardingCallback svc w ctx host port).verdict = true ↔
      (svc.SendSSHPublicKey (lookupLoop svc host filterNames w).world input).1 =
        Reply.ok { Success := true }) := by
  rcases context_cases ctx with ⟨u, K, hu, hk⟩ | hbad
  · have hs := callback_sendInputs svc w ctx host port u K hu hk
    rw [hs, List.mem_singleton] at hreach
    obtain ⟨-, -, -, -, hv⟩ := callback_valid svc w ctx host port u K hu hk
    rw [← hreach] at hs hv
    refine ⟨hs, ?_, ?_, hv⟩
    · intro e he
      cases hb : (LocalPortForwardingCallback svc w ctx host port).verdict with
      | false => rfl
      | true =>
        have := hv.1 hb
        rw [he] at this
        exact Reply.noConfusion this
    · intro hf
      cases hb : (LocalPortForwardingCallback svc w ctx host port).verdict with
      | false => rfl
      | true =>
        have := hv.1 hb
        rw [hf] at this
        simp at this
  · obtain ⟨-, -, -, -, h5⟩ := callback_invalid svc w ctx host port hbad
    rw [h5] at hreach
    simp at hreach

/-- A run of C7: the destination resolves, the credential service answers
Success = false; one credential call, verdict false. -/
theorem C7_verdict_decided_by_single_credential_call_witness :
    sendInputs (LocalPortForwardingCallback
      (scripted [Reply.ok { NetworkInterfaces := [record "us-east-1a" "i-0abc"] }]
        (fun _ => Reply.ok { Success := false }))
      0 (connection "alice" "K") "10.0.1.5" 22).trace =
      [ { AvailabilityZone := some "us-east-1a", InstanceId := some "i-0abc",
          InstanceOSUser := some "alice", SSHPublicKey := some "K" } ] ∧
    (LocalPortForwardingCallback
      (scripted [Reply.ok { NetworkInterfaces := [record "us-east-1a" "i-0abc"] }]
        (fun _ => Reply.ok { Success := false }))
      0 (connection "alice" "K") "10.0.1.5" 22).verdict = false :=
  have h := C7_verdict_decided_by_single_credential_call
    (scripted [Reply.ok { NetworkInterfaces := [record "us-east-1a" "i-0abc"] }]
      (fun _ => Reply.ok { Success := false }))
    0 (connection "alice" "K") "10.0.1.5" 22
    { AvailabilityZone := some "us-east-1a", InstanceId := some "i-0abc",
      InstanceOSUser := some "alice", SSHPublicKey := some "K" }
    (by decide)
  ⟨h.1, h.2.2.1 rfl⟩

/-- C8: the hook PublicKeyHandler returns true for every connection context and
every offered public key. -/
theorem C8_publicKeyHandler_always_accepts {PK W : Type} (svc : Services PK W)
    (ctx : Context PK) (key : PK) : (PublicKeyHandler svc ctx key).1 = true :=
  rfl

/-- C9: the destination port does not influence authorisation: for any two
ports the hook returns the same verdict, issues the same remote calls in the
same order (the same inventory queries, the same credential call with the same
arguments) and leaves the same world. -/
theorem C9_port_does_not_influence_authorization {PK W : Type} (svc : Services PK W) (w : W)
    (ctx : Context PK) (host : String) (p1 p2 : Nat) :
    (LocalPortForwardingCallback svc w ctx host p1).verdict =
      (LocalPortForwardingCallback svc w ctx host p2).verdict ∧
    remoteCalls (LocalPortForwardingCallback svc w ctx host p1).trace =
      remoteCalls (LocalPortForwardingCallback svc w ctx host p2).trace ∧
    describeInputs (LocalPortForwardingCallback svc w ctx host p1).trace =
      describeInputs (LocalPortForwardingCallback svc w ctx host p2).trace ∧
    sendInputs (LocalPortForwardingCallback svc w ctx host p1).trace =
      sendInputs (LocalPortForwardingCallback svc w ctx host p2).trace ∧
    (LocalPortForwardingCallback svc w ctx host p1).world =
      (LocalPortForwardingCallback svc w ctx host p2).world := by
  rcases context_cases ctx with ⟨u, K, hu, hk⟩ | hbad
  · obtain ⟨-, -, -, hw1, hv1⟩ := callback_valid svc w ctx host p1 u K hu hk
    obtain ⟨-, -, -, hw2, hv2⟩ := callback_valid svc w ctx host p2 u K hu hk
    refine ⟨?_, ?_, ?_, ?_, ?_⟩
    · exact Bool.eq_iff_iff.2 (hv1.trans hv2.symm)
    · rw [callback_remoteCalls svc w ctx host p1 u K hu hk,
        callback_remoteCalls svc w ctx host p2 u K hu hk]
    · rw [callback_describeInputs svc w ctx host p1 u K hu hk,
        callback_describeInputs svc w ctx host p2 u K hu hk]
    · rw [callback_sendInputs svc w ctx host p1 u K hu hk,
        callback_sendInputs svc w ctx host p2 u K hu hk]
    · rw [hw1, hw2]
  · obtain ⟨a1, a2, a3, a4, a5⟩ := callback_invalid svc w ctx host p1 hbad
    obtain ⟨b1, b2, b3, b4, b5⟩ := callback_invalid svc w ctx host p2 hbad
    exact ⟨a1.trans b1.symm, a3.trans b3.symm, a4.trans b4.symm, a5.trans b5.symm,
      a2.trans b2.symm⟩

/-- C10: on a context with a string user and a public key, the inventory
queries of one run of the hook are the queries for the first `n` names of the
fixed four-filter list, in order, with 1 ≤ n ≤ 4, each carrying exactly one
filter whose only value is the destination host; no query is issued twice; no
reply before the last query was a complete unique record; if some filter
yields a complete unique record then the last query issued is answered by one
(the run of queries ends right after the first such filter); and if no filter
does, n = 4. -/
theorem C10_inventory_query_sequence {PK W : Type} (svc : Services PK W) (w : W)
    (ctx : Context PK) (host : String) (port : Nat) (u : String) (K : PK)
    (hu : ctx.Value ContextKey.ContextKeyUser = Value.string u)
    (hk : ctx.Value ContextKey.ContextKeyPublicKey = Value.publicKey K) :
    describeInputs (LocalPortForwardingCallback svc w ctx host port).trace =
      (filterNames.take (queriesIssued svc host filterNames w)).map
        (fun f => { Filters := [ { Name := some f, Values := [host] } ] }) ∧
    1 ≤ queriesIssued svc host filterNames w ∧
    queriesIssued svc host filterNames w ≤ 4 ∧
    (describeInputs (LocalPortForwardingCallback svc w ctx host port).trace).Nodup ∧
    (∀ r ∈ (answers svc host filterNames w).take (queriesIssued svc host filterNames w - 1),
      completeUnique r = none) ∧
    ((∃ r ∈ answers svc host filterNames w, (completeUnique r).isSome = true) →
      ∃ r p, (answers svc host filterNames w)[queriesIssued svc host filterNames w - 1]? =
          some r ∧ completeUnique r = some p) ∧
    ((∀ r ∈ answers svc host filterNames w, completeUnique r = none) →
      queriesIssued svc host filterNames w = 4) := by
  obtain ⟨h1, h2, h3, h4, h5⟩ := queriesIssued_spec svc host filterNames w
  have hd : describeInputs (LocalPortForwardingCallback svc w ctx host port).trace =
      (filterNames.take (queriesIssued svc host filterNames w)).map
        (fun f => filterQuery f host) := by
    rw [callback_describeInputs svc w ctx host port u K hu hk, lookupLoop_describeInputs]
  refine ⟨hd, h2 (by decide), h1, ?_, h3, h4, h5⟩
  rw [hd]
  exact (filterNames_nodup.sublist (List.take_sublist _ _)).map (filterQuery_injective host)

/-- A run of C10: the first query errors and the second yields a complete unique
record; exactly those two queries are issued, each once, in order. -/
theorem C10_inventory_query_sequence_witness :
    describeInputs (LocalPortForwardingCallback
      (scripted
        [ Reply.err "RequestError: timeout",
          Reply.ok { NetworkInterfaces := [record "us-east-1a" "i-0abc"] } ]
        (fun _ => Reply.ok { Success := true }))
      0 (connection "alice" "K") "10.0.1.5" 22).trace =
      [ { Filters := [ { Name := some "addresses.private-ip-address", Values := ["10.0.1.5"] } ] },
        { Filters := [ { Name := some "addresses.private-dns-name", Values := ["10.0.1.5"] } ] } ] :=
  (C10_inventory_query_sequence
    (scripted
      [ Reply.err "RequestError: timeout",
        Reply.ok { NetworkInterfaces := [record "us-east-1a" "i-0abc"] } ]
      (fun _ => Reply.ok { Success := true }))
    0 (connection "alice" "K") "10.0.1.5" 22 "alice" "K" rfl rfl).1.trans (by decide)

end Bastion
